import Mathlib

/-!
Verification of the NanoWebForge workflow orchestration core (src/App.tsx,
src/types.ts) against its specification.

Conventions of the embedding:
* TypeScript strings are Lean `String`s; the textual split/join used by the
  asset hot-swap is modelled on the underlying `List Char`.
* `useState` updates are modelled as pure functions `WorkflowState → WorkflowState`;
  each React handler is the sequential composition of its `setState` calls.
* External asynchronous calls (file conversion, analyze, research, image
  generation, site-code generation) are oracles passed as `Except String _`
  values: `.ok` models a resolved promise, `.error` a rejected one.
* `Math.random().toString(36).substr(2, 9)` identifiers, `Date.now()` and
  `toLocaleTimeString()` are modelled as explicit parameters (`ids`, `ts`, `now`).
* A rejected promise that the source never catches leaves the state exactly as
  it was at the rejection point; the model returns that state.
-/

/-! ## Data model (src/types.ts) -/

inductive WorkflowStep where
  | UPLOAD | RECIPE | ANALYSIS | RESEARCH | EDITOR | GENERATION | CODING | PREVIEW
deriving DecidableEq

inductive ForgeRecipe where
  | default | neoBrutalism | glassmorphism | saasMinimal | cyberpunkDark
deriving DecidableEq

inductive DeployStatus where
  | idle | authorizing | uploading | ready | error
deriving DecidableEq

inductive DeployPlatform where
  | netlify | github
deriving DecidableEq

structure DeploymentState where
  status : DeployStatus
  url : Option String := none
  siteId : Option String := none
  repoUrl : Option String := none
  repoName : Option String := none
  prUrl : Option String := none
  platform : Option DeployPlatform := none
  timestamp : Option Nat := none
deriving DecidableEq

structure AnalysisResult where
  pageType : String
  industry : String
  intent : String
  targetAudience : String
  colorPalette : List String
  layoutStructure : List String
  uxPatterns : List String
  isEcommerce : Bool
deriving DecidableEq

inductive PayMethod where
  | upi | qr
deriving DecidableEq

structure PaymentConfig where
  method : PayMethod
  upiId : Option String := none
  qrImage : Option String := none
deriving DecidableEq

structure ProductItem where
  id : String
  name : String
  price : String
  description : Option String := none
  image : Option String := none
deriving DecidableEq

structure DesignSystem where
  primaryColor : String
  fontStyle : String
  borderRadius : String
deriving DecidableEq

structure SourceRef where
  title : String
  uri : String
deriving DecidableEq

structure MarketContent where
  aboutUs : String
  services : List String
  valueProposition : String
deriving DecidableEq

structure ResearchResult where
  trends : List String
  competitors : List String
  keywords : List String
  recommendedDesignSystem : DesignSystem
  sources : List SourceRef
  marketContent : MarketContent
  paymentConfig : Option PaymentConfig := none
  products : Option (List ProductItem) := none
deriving DecidableEq

/-- `Partial<ResearchResult>`: a sparse top-level patch — `some v` models a key
present in the override object, `none` a key that is absent from it. -/
structure ResearchOverrides where
  trends : Option (List String) := none
  competitors : Option (List String) := none
  keywords : Option (List String) := none
  recommendedDesignSystem : Option DesignSystem := none
  sources : Option (List SourceRef) := none
  marketContent : Option MarketContent := none
  paymentConfig : Option (Option PaymentConfig) := none
  products : Option (Option (List ProductItem)) := none
deriving DecidableEq

inductive AssetType where
  | hero | feature | product | abstract | icon | car
deriving DecidableEq

structure GeneratedAsset where
  id : String
  type : AssetType
  url : String
  prompt : String
deriving DecidableEq

structure WebPage where
  name : String
  filename : String
  code : String
deriving DecidableEq

structure GeneratedSite where
  id : String
  name : String
  pages : List WebPage
  activePageIndex : Nat
  timestamp : Nat
  assets : List GeneratedAsset
  deployment : Option DeploymentState := none
  analysis : Option AnalysisResult := none
  recipe : Option ForgeRecipe := none
deriving DecidableEq

structure WorkflowState where
  step : WorkflowStep
  uploadedImages : List String
  analysis : Option AnalysisResult
  research : Option ResearchResult
  researchOverrides : Option ResearchOverrides
  generatedAssets : List GeneratedAsset
  site : Option GeneratedSite
  previousSite : Option GeneratedSite
  isProcessing : Bool
  deployment : Option DeploymentState
  error : Option String
  logs : List String
  gallery : List GeneratedSite
  selectedRecipe : ForgeRecipe
deriving DecidableEq

/-- `INITIAL_STATE` from src/types.ts. The provided source file is cut off
inside this literal after the `research` field; the remaining initial values
(`researchOverrides` onward) are modelled from the spec: "WorkflowState is
created once at session start (restored gallery from durable storage,
everything else default)", so every remaining field gets its default
(empty / null / false) value and the module-level constant's gallery is `[]`. -/
def INITIAL_STATE : WorkflowState :=
  { step := WorkflowStep.UPLOAD
    uploadedImages := []
    analysis := none
    research := none
    researchOverrides := none
    generatedAssets := []
    site := none
    previousSite := none
    isProcessing := false
    deployment := none
    error := none
    logs := []
    gallery := []
    selectedRecipe := ForgeRecipe.default }

/-! ## Textual substitution (JavaScript `code.split(old).join(new)`)

JavaScript `String.prototype.split` with a non-empty separator scans left to
right, cutting at each non-overlapping occurrence; with the empty separator it
returns the list of single characters.  `Array.prototype.join` interleaves the
separator between the elements.  `splitCore` processes the character list one
character at a time; `skip` counts characters of the separator still to be
consumed after a match was found at the previous position. -/

def splitCore (pat : List Char) : List Char → Nat → List Char → List (List Char)
  | [], _, acc => [acc.reverse]
  | _ :: cs, skip+1, acc => splitCore pat cs skip acc
  | c :: cs, 0, acc =>
    if pat.isPrefixOf (c :: cs) then
      acc.reverse :: splitCore pat cs (pat.length - 1) []
    else
      splitCore pat cs 0 (c :: acc)

def splitList (pat s : List Char) : List (List Char) :=
  if pat.isEmpty then s.map (fun c => [c]) else splitCore pat s 0 []

def joinList (sep : List Char) : List (List Char) → List Char
  | [] => []
  | [x] => x
  | x :: y :: xs => x ++ sep ++ joinList sep (y :: xs)

/-- Model of `s.split(pat).join(rep)` from src/App.tsx line 204. -/
def replaceAll (s pat rep : String) : String :=
  String.mk (joinList rep.data (splitList pat.data s.data))

/-- Model of JavaScript `s.substring(0, n)`. -/
def strTake (s : String) (n : Nat) : String :=
  String.mk (s.data.take n)

/-! ## Shared helpers of the handlers (src/App.tsx) -/

/-- `addLog` (App.tsx line 60): appends one timestamped line to `logs`.
`now` stands for `new Date().toLocaleTimeString()`. -/
def addLog (st : WorkflowState) (now msg : String) : WorkflowState :=
  { st with logs := st.logs ++ ["[" ++ now ++ "] " ++ msg] }

/-- JavaScript truthiness of an optional string (`if (product.image)`,
`req.existingUrl ?`): `undefined` and the empty string are falsy. -/
def truthy : Option String → Bool
  | none => false
  | some s => s != ""

/-- JavaScript `e.message || "default"`. -/
def errMsgOr (e default : String) : String :=
  if e = "" then default else e

/-- The template-literal rendering of an asset kind (`${req.type}`). -/
def typeName : AssetType → String
  | .hero => "hero"
  | .feature => "feature"
  | .product => "product"
  | .abstract => "abstract"
  | .icon => "icon"
  | .car => "car"

/-- `Promise.all` over the per-file conversion promises: resolves with the list
of all results, or rejects with the first rejection. -/
def promiseAll : List (Except String String) → Except String (List String)
  | [] => .ok []
  | .ok s :: rest => (promiseAll rest).map (s :: ·)
  | .error e :: _ => .error e

/-- The fixed fallback image used when `generateNanoImage` rejects
(App.tsx line 150). -/
def placeholderUrl : String :=
  "https://images.unsplash.com/photo-1618005182384-a83a8bd57fbe?q=80&w=2564&auto=format&fit=crop"

/-! ## Phase sequencer (src/App.tsx) -/

/-- The `catch` block of `handleFileUpload` (App.tsx lines 84-88). -/
def uploadCatch (st : WorkflowState) (e now : String) : WorkflowState :=
  addLog
    { st with isProcessing := false,
              error := some (errMsgOr e "Forge sequence failed to initialize.") }
    now ("[ERROR] " ++ e)

/-- `runAnalysisPhase` (App.tsx lines 91-102).  `an` and `re` are the outcomes
of the external `analyzeScreenshot` and `conductResearch` calls.  A rejection
is returned as `.error (state-at-rejection, message)`, to be caught (or not) by
the caller. -/
def runAnalysisPhase (st : WorkflowState) (an : Except String AnalysisResult)
    (re : Except String ResearchResult) (now : String) :
    Except (WorkflowState × String) WorkflowState :=
  let st1 := addLog { st with step := WorkflowStep.ANALYSIS } now
    "Deconstructing visual hierarchy..."
  match an with
  | .error e => .error (st1, e)
  | .ok analysis =>
    let st2 := { st1 with analysis := some analysis }
    let st3 := addLog { st2 with step := WorkflowStep.RESEARCH } now
      "Mining sector intelligence & trending design patterns..."
    match re with
    | .error e => .error (st3, e)
    | .ok research =>
      .ok (addLog { st3 with research := some research,
                             step := WorkflowStep.EDITOR,
                             isProcessing := false } now
        "Harvest complete. Ready for catalog setup.")

/-- `handleFileUpload` (App.tsx lines 64-89): the spec's `acceptUploads`.
`convs` holds one conversion outcome per selected file (the FileReader
boundary); the whole conversion join is `promiseAll convs`.  The `try` block
covers the conversion join and the awaited analysis/research chain. -/
def handleFileUpload (st : WorkflowState) (convs : List (Except String String))
    (an : Except String AnalysisResult) (re : Except String ResearchResult)
    (now : String) : WorkflowState :=
  if convs.isEmpty then st
  else
    let st1 := addLog
      { st with isProcessing := true, step := WorkflowStep.UPLOAD,
                error := none, logs := [] } now
      "Initializing Neural Forge kernel..."
    match promiseAll convs with
    | .error e => uploadCatch st1 e now
    | .ok base64Images =>
      let st2 := addLog { st1 with uploadedImages := base64Images } now
        ("Blueprints received: " ++ toString convs.length ++ " design files.")
      match runAnalysisPhase st2 an re now with
      | .ok st3 => st3
      | .error (st3, e) => uploadCatch st3 e now

/-- The shallow merge `{ ...state.research!, ...overrides }`
(App.tsx line 107): a top-level key present in `overrides` replaces the base
value, an absent key keeps it. -/
def mergeResearch (base : ResearchResult) (o : ResearchOverrides) : ResearchResult :=
  { trends := o.trends.getD base.trends
    competitors := o.competitors.getD base.competitors
    keywords := o.keywords.getD base.keywords
    recommendedDesignSystem := o.recommendedDesignSystem.getD base.recommendedDesignSystem
    sources := o.sources.getD base.sources
    marketContent := o.marketContent.getD base.marketContent
    paymentConfig := o.paymentConfig.getD base.paymentConfig
    products := o.products.getD base.products }

/-- One required asset slot (the local `assetPrompts` entries of
`runAssetPhase`, App.tsx lines 113-134). -/
structure AssetReq where
  type : AssetType
  prompt : String
  existingUrl : Option String := none
deriving DecidableEq

/-- The slot list of the asset phase (App.tsx lines 113-134): hero, feature,
then one slot per product of the merged research result; a product carrying a
(truthy) user-supplied image keeps it as `existingUrl`. -/
def buildAssetPrompts (analysis : AnalysisResult) (finalResearch : ResearchResult) :
    List AssetReq :=
  [ { type := AssetType.hero,
      prompt := "High-end minimalist hero visual for " ++ analysis.industry ++
        ". Theme: " ++ finalResearch.marketContent.valueProposition },
    { type := AssetType.feature,
      prompt := "Abstract high-tech professional background for " ++ analysis.industry } ]
  ++ (match finalResearch.products with
      | none => []
      | some products =>
        products.map (fun product =>
          if truthy product.image then
            { type := AssetType.product,
              prompt := "User uploaded product: " ++ product.name,
              existingUrl := product.image }
          else
            { type := AssetType.product,
              prompt := "High-end commercial photography of " ++ product.name ++
                ". 8K, Clean background." }))

/-- The asset recorded for slot `i` given the generation outcome `res`
(the body of the `for` loop, App.tsx lines 137-152). -/
def forgeOne (req : AssetReq) (res : Except String String) (id : String) :
    GeneratedAsset :=
  if truthy req.existingUrl then
    { id := id, type := req.type, prompt := req.prompt, url := req.existingUrl.getD "" }
  else
    match res with
    | .ok url => { id := id, type := req.type, prompt := req.prompt, url := url }
    | .error _ =>
      { id := id, type := req.type, prompt := req.prompt, url := placeholderUrl }

/-- The asset list produced by the loop, slot by slot from index `i`. -/
def forgeAssets (oracle : Nat → Except String String) (ids : Nat → String) :
    Nat → List AssetReq → List GeneratedAsset
  | _, [] => []
  | i, req :: rest => forgeOne req (oracle i) (ids i) :: forgeAssets oracle ids (i+1) rest

/-- The sequential `for (const req of assetPrompts)` loop of `runAssetPhase`
(App.tsx lines 137-152), threading the state (for `addLog`) and the
accumulated asset array.  `oracle i` is the outcome of the `generateNanoImage`
call for slot `i`; `ids i` its fresh random identifier. -/
def assetLoop (oracle : Nat → Except String String) (ids : Nat → String)
    (now : String) : Nat → List AssetReq → WorkflowState → List GeneratedAsset →
    WorkflowState × List GeneratedAsset
  | _, [], st, assets => (st, assets)
  | i, req :: rest, st, assets =>
    if truthy req.existingUrl then
      assetLoop oracle ids now (i+1) rest
        (addLog st now ("Using user-uploaded artifact for " ++ typeName req.type ++ "..."))
        (assets ++ [{ id := ids i, type := req.type, prompt := req.prompt,
                      url := req.existingUrl.getD "" }])
    else
      let st1 := addLog st now
        ("Forging " ++ typeName req.type ++ " artifact: " ++ strTake req.prompt 30 ++ "...")
      match oracle i with
      | .ok url =>
        assetLoop oracle ids now (i+1) rest st1
          (assets ++ [{ id := ids i, type := req.type, prompt := req.prompt, url := url }])
      | .error _ =>
        assetLoop oracle ids now (i+1) rest
          (addLog st1 now
            ("[WARN] Generation for " ++ typeName req.type ++ " failed. Using placeholder."))
          (assets ++ [{ id := ids i, type := req.type, prompt := req.prompt,
                        url := placeholderUrl }])

/-- The `newSite` record assembled after `generateSiteCode` succeeds
(App.tsx lines 159-167). -/
def mkSite (siteId : String) (ts : Nat) (finalResearch : ResearchResult)
    (analysis : AnalysisResult) (pages : List WebPage) (assets : List GeneratedAsset) :
    GeneratedSite :=
  { id := siteId
    name := if finalResearch.marketContent.valueProposition = "" then
        "AI Generated Store"
      else finalResearch.marketContent.valueProposition
    pages := pages
    activePageIndex := 0
    timestamp := ts
    assets := assets
    analysis := some analysis }

/-- `runAssetPhase` (App.tsx lines 110-177).  `codeRes` is the outcome of the
external `generateSiteCode(analysis, finalResearch, assets.map(a => a.url))`
call.  The function is invoked without `await` and without any `try` around it
(App.tsx line 107), so when `codeRes` rejects nothing catches it: the state as
of the rejection point is the final observable state.  The source dereferences
`state.analysis!`; the `none` branch is unreachable in the scenarios the
claims quantify over. -/
def runAssetPhase (st : WorkflowState) (finalResearch : ResearchResult)
    (oracle : Nat → Except String String) (codeRes : Except String (List WebPage))
    (ids : Nat → String) (siteId : String) (ts : Nat) (now : String) : WorkflowState :=
  match st.analysis with
  | none => st
  | some analysis =>
    let reqs := buildAssetPrompts analysis finalResearch
    let pr := assetLoop oracle ids now 0 reqs st []
    let st1 : WorkflowState := { pr.1 with generatedAssets := pr.2 }
    let st2 := addLog { st1 with step := WorkflowStep.CODING } now
      "Architecting multi-page source via Gemini Forge..."
    match codeRes with
    | .error _ => st2
    | .ok pages =>
      let newSite := mkSite siteId ts finalResearch analysis pages pr.2
      addLog
        { st2 with site := some newSite,
                   gallery := (newSite :: st2.gallery).take 20,
                   step := WorkflowStep.PREVIEW,
                   isProcessing := false } now
        "Foundry sequence complete. Store is live for testing."

/-- `handleRefineryConfirm` (App.tsx lines 104-108): the spec's
`confirmRefinement`.  It calls `runAssetPhase` with the shallow merge of the
stored research result and the overrides, without `await` and without `try`.
The source dereferences `state.research!`; the `none` branch is unreachable in
the scenarios the claims quantify over. -/
def handleRefineryConfirm (st : WorkflowState) (overrides : ResearchOverrides)
    (oracle : Nat → Except String String) (codeRes : Except String (List WebPage))
    (ids : Nat → String) (siteId : String) (ts : Nat) (now : String) : WorkflowState :=
  match st.research with
  | none => st
  | some base =>
    let st1 := addLog
      { st with researchOverrides := some overrides,
                step := WorkflowStep.GENERATION,
                isProcessing := true } now
      "Refinery settings locked. Casting production assets..."
    runAssetPhase st1 (mergeResearch base overrides) oracle codeRes ids siteId ts now

/-! ## Deployment recorder and asset patcher (src/App.tsx) -/

/-- The `setState` updater of `handleDeploymentComplete` (App.tsx lines
180-191).  `{ ...deployment, siteId: deployment.siteId }` re-assigns the same
field and equals `deployment`. -/
def deployCore (st : WorkflowState) (d : DeploymentState) : WorkflowState :=
  match st.site with
  | none => st
  | some site =>
    let updatedSite := { site with deployment := some d }
    { st with site := some updatedSite,
              gallery := st.gallery.map (fun s =>
                if s.id == updatedSite.id then updatedSite else s) }

/-- `handleDeploymentComplete` (App.tsx lines 179-193): the updater followed by
the unconditional log line (`${deployment.url}` renders `undefined` when the
field is absent). -/
def handleDeploymentComplete (st : WorkflowState) (d : DeploymentState)
    (now : String) : WorkflowState :=
  addLog (deployCore st d) now
    ("DEPLOYMENT SYNC VERIFIED: " ++ d.url.getD "undefined")

/-- The `setState` updater of `handleAssetUpdated` (App.tsx lines 196-214):
the spec's `hotSwapAsset`.  Note the updated asset list is computed from the
live `generatedAssets`, the old reference is looked up there by identifier,
and the rewritten site is propagated into every gallery entry with the same
site identifier. -/
def hotSwapCore (st : WorkflowState) (assetId newUrl : String) : WorkflowState :=
  match st.site with
  | none => st
  | some site =>
    let updatedAssets := st.generatedAssets.map (fun a =>
      if a.id == assetId then { a with url := newUrl } else a)
    match st.generatedAssets.find? (fun a => a.id == assetId) with
    | none => st
    | some oldAsset =>
      let updatedPages := site.pages.map (fun page =>
        { page with code := replaceAll page.code oldAsset.url newUrl })
      let updatedSite := { site with pages := updatedPages, assets := updatedAssets }
      { st with generatedAssets := updatedAssets,
                site := some updatedSite,
                gallery := st.gallery.map (fun s =>
                  if s.id == updatedSite.id then updatedSite else s) }

/-- `handleAssetUpdated` (App.tsx lines 195-216): the updater followed by the
unconditional log line. -/
def handleAssetUpdated (st : WorkflowState) (assetId newUrl : String)
    (now : String) : WorkflowState :=
  addLog (hotSwapCore st assetId newUrl) now
    ("Asset " ++ assetId ++ " hot-swapped.")

/-- The active-page-index change handler (App.tsx line 334):
`onPageChange` only rewrites the active site, never the gallery. -/
def onPageChange (st : WorkflowState) (index : Nat) : WorkflowState :=
  { st with site := match st.site with
      | some s => some { s with activePageIndex := index }
      | none => none }

/-- The header logo click (App.tsx line 235): the spec's `reset()` is
`setState(INITIAL_STATE)`, replacing the whole state with the module-level
initial constant. -/
def resetState (_st : WorkflowState) : WorkflowState :=
  INITIAL_STATE

/-! ## Invariants (spec §3) -/

/-- Field-wise agreement of two sites on everything except the
active-page-index. -/
def eqExceptIdx (g s : GeneratedSite) : Prop :=
  g.id = s.id ∧ g.name = s.name ∧ g.pages = s.pages ∧ g.timestamp = s.timestamp ∧
  g.assets = s.assets ∧ g.deployment = s.deployment ∧ g.analysis = s.analysis ∧
  g.recipe = s.recipe

/-- The spec's mirror invariant: every gallery entry whose identifier matches
the active site equals the active site. -/
def mirrors (st : WorkflowState) : Prop :=
  match st.site with
  | none => True
  | some s => ∀ g ∈ st.gallery, g.id = s.id → g = s

/-- The weakened mirror invariant: matching gallery entries agree with the
active site on every field except the active-page-index. -/
def mirrorsExceptIdx (st : WorkflowState) : Prop :=
  match st.site with
  | none => True
  | some s => ∀ g ∈ st.gallery, g.id = s.id → eqExceptIdx g s

/-! ## Concrete fixtures (used by witnesses and counterexamples) -/

def exDesign : DesignSystem :=
  { primaryColor := "", fontStyle := "", borderRadius := "" }

def exMarket : MarketContent :=
  { aboutUs := "", services := [], valueProposition := "VP" }

def exAnalysis : AnalysisResult :=
  { pageType := "landing", industry := "tea", intent := "", targetAudience := "",
    colorPalette := [], layoutStructure := [], uxPatterns := [], isEcommerce := true }

def exResearch : ResearchResult :=
  { trends := [], competitors := [], keywords := [],
    recommendedDesignSystem := exDesign, sources := [], marketContent := exMarket }

def exOverrides : ResearchOverrides :=
  { trends := some ["brutalism"] }

def exDeploy : DeploymentState :=
  { status := DeployStatus.ready, url := some "https://x.example", siteId := some "n1" }

/-- An image-generation oracle that fails exactly on slot 0. -/
def exOracle : Nat → Except String String :=
  fun n => if n = 0 then Except.error "img down" else Except.ok "u"

def exAsset (u : String) : GeneratedAsset :=
  { id := "a1", type := AssetType.hero, url := u, prompt := "" }

def exPage (c : String) : WebPage :=
  { name := "Home", filename := "index.html", code := c }

def exSite (c u : String) : GeneratedSite :=
  { id := "s1", name := "S", pages := [exPage c], activePageIndex := 0,
    timestamp := 0, assets := [exAsset u] }

/-- A post-run shaped state: the active site also sits in the gallery, and the
live asset list matches the site's. -/
def exState (c u : String) : WorkflowState :=
  { INITIAL_STATE with
      site := some (exSite c u),
      generatedAssets := [exAsset u],
      gallery := [exSite c u],
      step := WorkflowStep.PREVIEW }

/-- A state paused at the refinement editor, as after a successful research
phase. -/
def exEditorState : WorkflowState :=
  { INITIAL_STATE with
      analysis := some exAnalysis,
      research := some exResearch,
      step := WorkflowStep.EDITOR }

/-! ## Properties of the split/join substitution -/

theorem isPrefixOf_append_self (l rest : List Char) :
    l.isPrefixOf (l ++ rest) = true := by
  induction l with
  | nil => simp [List.isPrefixOf]
  | cons a as ih => simp [List.isPrefixOf, ih]

theorem eq_append_of_isPrefixOf {p l : List Char} (h : p.isPrefixOf l = true) :
    ∃ t, l = p ++ t := by
  induction p generalizing l with
  | nil => exact ⟨l, rfl⟩
  | cons a as ih =>
    cases l with
    | nil => simp [List.isPrefixOf] at h
    | cons b bs =>
      simp only [List.isPrefixOf, Bool.and_eq_true, beq_iff_eq] at h
      obtain ⟨t, ht⟩ := ih h.2
      exact ⟨t, by simp [h.1, ht]⟩

theorem isPrefixOf_cons_eq_false {pat : List Char} (hp : pat ≠ []) {c : Char}
    (hc : c ∉ pat) (xs : List Char) : pat.isPrefixOf (c :: xs) = false := by
  cases pat with
  | nil => exact absurd rfl hp
  | cons h t =>
    have hne : (h == c) = false := by
      refine beq_eq_false_iff_ne.2 (fun e => hc ?_)
      exact e ▸ List.mem_cons_self h t
    simp [List.isPrefixOf, hne]

theorem splitCore_ne_nil (pat : List Char) :
    ∀ (s : List Char) (skip : Nat) (acc : List Char), splitCore pat s skip acc ≠ [] := by
  intro s
  induction s with
  | nil => intro skip acc; simp [splitCore]
  | cons c cs ih =>
    intro skip acc
    cases skip with
    | succ k => simp only [splitCore]; exact ih k acc
    | zero =>
      by_cases h : pat.isPrefixOf (c :: cs)
      · simp [splitCore, h]
      · simpa [splitCore, h] using ih 0 (c :: acc)

theorem splitCore_skip (pat : List Char) :
    ∀ (t rest acc : List Char), splitCore pat (t ++ rest) t.length acc = splitCore pat rest 0 acc := by
  intro t
  induction t with
  | nil => intro rest acc; rfl
  | cons c t ih => intro rest acc; simp [splitCore, ih rest acc]

theorem splitCore_at_match {pat : List Char} (hp : pat ≠ []) (rest acc : List Char) :
    splitCore pat (pat ++ rest) 0 acc = acc.reverse :: splitCore pat rest 0 [] := by
  cases pat with
  | nil => exact absurd rfl hp
  | cons h t =>
    have hpre : (h :: t).isPrefixOf (h :: t ++ rest) = true := by
      have := isPrefixOf_append_self (h :: t) rest
      simp only [List.cons_append] at this
      exact this
    have hlen : (h :: t).length - 1 = t.length := by simp
    calc splitCore (h :: t) ((h :: t) ++ rest) 0 acc
        = acc.reverse :: splitCore (h :: t) (t ++ rest) t.length [] := by
          simp [splitCore, hpre, hlen]
      _ = acc.reverse :: splitCore (h :: t) rest 0 [] := by
          rw [splitCore_skip]

theorem splitCore_free {pat : List Char} (hp : pat ≠ []) :
    ∀ (p : List Char), (∀ c ∈ p, c ∉ pat) →
      ∀ (rest acc : List Char),
        splitCore pat (p ++ rest) 0 acc = splitCore pat rest 0 (p.reverse ++ acc) := by
  intro p
  induction p with
  | nil => intro _ rest acc; simp
  | cons c p ih =>
    intro hfree rest acc
    have hc : c ∉ pat := hfree c (List.mem_cons_self c p)
    have hnot : pat.isPrefixOf (c :: (p ++ rest)) = false :=
      isPrefixOf_cons_eq_false hp hc (p ++ rest)
    have h2 := ih (fun x hx => hfree x (List.mem_cons_of_mem c hx)) rest (c :: acc)
    simp only [List.cons_append, splitCore, List.append_eq, hnot, Bool.false_eq_true,
      if_false]
    rw [h2]
    simp

theorem joinList_cons_of_ne_nil (sep x : List Char) {L : List (List Char)} (h : L ≠ []) :
    joinList sep (x :: L) = x ++ sep ++ joinList sep L := by
  cases L with
  | nil => exact absurd rfl h
  | cons y ys => rfl

theorem isPrefixOfTrue_of {l₁ l₂ : List Char} (h : l₁ <+: l₂) :
    l₁.isPrefixOf l₂ = true := by
  obtain ⟨t, rfl⟩ := h
  exact isPrefixOf_append_self l₁ t

theorem splitList_ne_nil {pat : List Char} (hp : pat ≠ []) (s : List Char) :
    splitList pat s ≠ [] := by
  have hpe : pat.isEmpty = false := by
    cases pat with
    | nil => exact absurd rfl hp
    | cons a as => rfl
  simp only [splitList, hpe, Bool.false_eq_true, if_false]
  exact splitCore_ne_nil pat s 0 []

theorem joinList_splitCore {pat : List Char} (hp : pat ≠ []) :
    ∀ (n : Nat) (s : List Char), s.length ≤ n → ∀ (acc : List Char),
      joinList pat (splitCore pat s 0 acc) = acc.reverse ++ s := by
  intro n
  induction n with
  | zero =>
    intro s hs acc
    have hsnil : s = [] := List.eq_nil_of_length_eq_zero (Nat.le_zero.mp hs)
    subst hsnil
    simp [splitCore, joinList]
  | succ n ih =>
    intro s hs acc
    by_cases hpre : pat.isPrefixOf s = true
    · obtain ⟨rest, hrest⟩ := eq_append_of_isPrefixOf hpre
      subst hrest
      rw [splitCore_at_match hp,
        joinList_cons_of_ne_nil pat acc.reverse (splitCore_ne_nil pat rest 0 [])]
      have hp1 : 1 ≤ pat.length := by
        cases pat with
        | nil => exact absurd rfl hp
        | cons a as => simp
      have hlen : rest.length ≤ n := by
        simp only [List.length_append] at hs
        omega
      rw [ih rest hlen []]
      simp
    · rw [Bool.not_eq_true] at hpre
      cases s with
      | nil => simp [splitCore, joinList]
      | cons c cs =>
        simp only [splitCore, hpre, Bool.false_eq_true, if_false]
        have hlen : cs.length ≤ n := by
          simp only [List.length_cons] at hs
          omega
        rw [ih cs hlen (c :: acc)]
        simp

theorem joinList_splitList {pat : List Char} (hp : pat ≠ []) (s : List Char) :
    joinList pat (splitList pat s) = s := by
  have hpe : pat.isEmpty = false := by
    cases pat with
    | nil => exact absurd rfl hp
    | cons a as => rfl
  simp only [splitList, hpe, Bool.false_eq_true, if_false]
  simpa using joinList_splitCore hp s.length s le_rfl []

theorem invStep {pat : List Char} {c : Char} {cs acc : List Char}
    (hpre : pat.isPrefixOf (c :: cs) = false)
    (hinv : ∀ a b, b ≠ [] → acc.reverse = a ++ b → ¬ pat <+: (b ++ (c :: cs))) :
    ∀ a b, b ≠ [] → (c :: acc).reverse = a ++ b → ¬ pat <+: (b ++ cs) := by
  intro a b hb habs hcontra
  rcases List.eq_nil_or_concat b with rfl | ⟨b₀, x, rfl⟩
  · exact hb rfl
  · rw [List.concat_eq_append] at habs hcontra
    have habs2 : (a ++ b₀) ++ [x] = acc.reverse ++ [c] := by
      rw [List.append_assoc, ← habs]
      simp
    obtain ⟨heq, hx⟩ := List.append_inj' habs2 rfl
    have hxc : x = c := by simpa using hx
    cases b₀ with
    | nil =>
      have hcon2 : pat <+: (c :: cs) := by simpa [hxc] using hcontra
      have : pat.isPrefixOf (c :: cs) = true := isPrefixOfTrue_of hcon2
      rw [hpre] at this
      exact Bool.false_ne_true this
    | cons d ds =>
      refine hinv a (d :: ds) (by simp) heq.symm ?_
      simpa [hxc, List.append_assoc] using hcontra

theorem splitCore_pieces {pat : List Char} (hp : pat ≠ []) :
    ∀ (n : Nat) (s : List Char), s.length ≤ n → ∀ (acc : List Char),
      (∀ a b, b ≠ [] → acc.reverse = a ++ b → ¬ pat <+: (b ++ s)) →
      ∀ piece ∈ splitCore pat s 0 acc, ¬ pat <:+: piece := by
  intro n
  induction n with
  | zero =>
    intro s hs acc hinv piece hmem hinf
    have hsnil : s = [] := List.eq_nil_of_length_eq_zero (Nat.le_zero.mp hs)
    subst hsnil
    simp only [splitCore, List.mem_singleton] at hmem
    subst hmem
    obtain ⟨u, v, huv⟩ := hinf
    refine hinv u (pat ++ v) (by simp [hp]) (by rw [← huv]; simp) ?_
    exact ⟨v ++ [], by simp⟩
  | succ n ih =>
    intro s hs acc hinv piece hmem hinf
    by_cases hpre : pat.isPrefixOf s = true
    · obtain ⟨rest, hrest⟩ := eq_append_of_isPrefixOf hpre
      subst hrest
      rw [splitCore_at_match hp] at hmem
      rcases List.mem_cons.mp hmem with hmem | hmem
      · subst hmem
        obtain ⟨u, v, huv⟩ := hinf
        refine hinv u (pat ++ v) (by simp [hp]) (by rw [← huv]; simp) ?_
        exact ⟨v ++ (pat ++ rest), by simp⟩
      · have hp1 : 1 ≤ pat.length := by
          cases pat with
          | nil => exact absurd rfl hp
          | cons a as => simp
        have hlen : rest.length ≤ n := by
          simp only [List.length_append] at hs
          omega
        refine ih rest hlen [] ?_ piece hmem hinf
        intro a b hb habs
        exact absurd (List.append_eq_nil.mp habs.symm).2 hb
    · rw [Bool.not_eq_true] at hpre
      cases s with
      | nil =>
        simp only [splitCore, List.mem_singleton] at hmem
        subst hmem
        obtain ⟨u, v, huv⟩ := hinf
        refine hinv u (pat ++ v) (by simp [hp]) (by rw [← huv]; simp) ?_
        exact ⟨v ++ [], by simp⟩
      | cons c cs =>
        simp only [splitCore, hpre, Bool.false_eq_true, if_false] at hmem
        have hlen : cs.length ≤ n := by
          simp only [List.length_cons] at hs
          omega
        exact ih cs hlen (c :: acc) (invStep hpre hinv) piece hmem hinf

theorem splitList_pieces {pat : List Char} (hp : pat ≠ []) (s : List Char) :
    ∀ piece ∈ splitList pat s, ¬ pat <:+: piece := by
  have hpe : pat.isEmpty = false := by
    cases pat with
    | nil => exact absurd rfl hp
    | cons a as => rfl
  intro piece hmem
  simp only [splitList, hpe, Bool.false_eq_true, if_false] at hmem
  refine splitCore_pieces hp s.length s le_rfl [] ?_ piece hmem
  intro a b hb habs
  exact absurd (List.append_eq_nil.mp habs.symm).2 hb

theorem splitCore_chars {pat : List Char} (hp : pat ≠ []) :
    ∀ (n : Nat) (s : List Char), s.length ≤ n → ∀ (acc piece : List Char),
      piece ∈ splitCore pat s 0 acc → ∀ ch ∈ piece, ch ∈ acc ∨ ch ∈ s := by
  intro n
  induction n with
  | zero =>
    intro s hs acc piece hmem ch hch
    have hsnil : s = [] := List.eq_nil_of_length_eq_zero (Nat.le_zero.mp hs)
    subst hsnil
    simp only [splitCore, List.mem_singleton] at hmem
    subst hmem
    exact Or.inl (List.mem_reverse.mp hch)
  | succ n ih =>
    intro s hs acc piece hmem ch hch
    by_cases hpre : pat.isPrefixOf s = true
    · obtain ⟨rest, hrest⟩ := eq_append_of_isPrefixOf hpre
      subst hrest
      rw [splitCore_at_match hp] at hmem
      rcases List.mem_cons.mp hmem with hmem | hmem
      · subst hmem
        exact Or.inl (List.mem_reverse.mp hch)
      · have hp1 : 1 ≤ pat.length := by
          cases pat with
          | nil => exact absurd rfl hp
          | cons a as => simp
        have hlen : rest.length ≤ n := by
          simp only [List.length_append] at hs
          omega
        rcases ih rest hlen [] piece hmem ch hch with h | h
        · exact absurd h (List.not_mem_nil ch)
        · exact Or.inr (List.mem_append_right pat h)
    · rw [Bool.not_eq_true] at hpre
      cases s with
      | nil =>
        simp only [splitCore, List.mem_singleton] at hmem
        subst hmem
        exact Or.inl (List.mem_reverse.mp hch)
      | cons c cs =>
        simp only [splitCore, hpre, Bool.false_eq_true, if_false] at hmem
        have hlen : cs.length ≤ n := by
          simp only [List.length_cons] at hs
          omega
        rcases ih cs hlen (c :: acc) piece hmem ch hch with h | h
        · rcases List.mem_cons.mp h with rfl | h
          · exact Or.inr (List.mem_cons_self ch cs)
          · exact Or.inl h
        · exact Or.inr (List.mem_cons_of_mem c h)

theorem splitList_chars {pat : List Char} (hp : pat ≠ []) (s : List Char) :
    ∀ piece ∈ splitList pat s, ∀ ch ∈ piece, ch ∈ s := by
  have hpe : pat.isEmpty = false := by
    cases pat with
    | nil => exact absurd rfl hp
    | cons a as => rfl
  intro piece hmem ch hch
  simp only [splitList, hpe, Bool.false_eq_true, if_false] at hmem
  rcases splitCore_chars hp s.length s le_rfl [] piece hmem ch hch with h | h
  · exact absurd h (List.not_mem_nil ch)
  · exact h

theorem splitList_joinList {pat : List Char} (hp : pat ≠ []) :
    ∀ (pieces : List (List Char)), pieces ≠ [] →
      (∀ p ∈ pieces, ∀ c ∈ p, c ∉ pat) →
      splitList pat (joinList pat pieces) = pieces := by
  have hpe : pat.isEmpty = false := by
    cases pat with
    | nil => exact absurd rfl hp
    | cons a as => rfl
  intro pieces
  induction pieces with
  | nil => intro h; exact absurd rfl h
  | cons p ps ih =>
    intro _ hfree
    have hpfree : ∀ c ∈ p, c ∉ pat := hfree p (List.mem_cons_self p ps)
    cases ps with
    | nil =>
      show splitList pat (joinList pat [p]) = [p]
      have : joinList pat [p] = p := rfl
      rw [this]
      simp only [splitList, hpe, Bool.false_eq_true, if_false]
      have h2 := splitCore_free hp p hpfree [] []
      simp only [List.append_nil] at h2
      rw [h2]
      simp [splitCore]
    | cons q qs =>
      have hjoin : joinList pat (p :: q :: qs) = p ++ (pat ++ joinList pat (q :: qs)) := by
        show p ++ pat ++ joinList pat (q :: qs) = _
        simp [List.append_assoc]
      simp only [splitList, hpe, Bool.false_eq_true, if_false]
      rw [hjoin, splitCore_free hp p hpfree _ [], List.append_nil,
        splitCore_at_match hp]
      have htail := ih (List.cons_ne_nil q qs)
        (fun x hx => hfree x (List.mem_cons_of_mem p hx))
      simp only [splitList, hpe, Bool.false_eq_true, if_false] at htail
      rw [htail]
      simp

theorem occurrenceInAppend_cases {pat rep x y : List Char} (hpat : pat ≠ [])
    (hrep : rep ≠ []) (hdisj : ∀ c ∈ rep, c ∉ pat) :
    pat <:+: (x ++ rep ++ y) → pat <:+: x ∨ pat <:+: y := by
  rintro ⟨u, v, huv⟩
  have huv' : u ++ (pat ++ v) = x ++ (rep ++ y) := by
    simpa [List.append_assoc] using huv
  rcases List.append_eq_append_iff.mp huv' with ⟨w, hw1, hw2⟩ | ⟨w, hw1, hw2⟩
  · -- x = u ++ w and pat ++ v = w ++ (rep ++ y)
    rcases List.append_eq_append_iff.mp hw2 with ⟨z, hz1, _⟩ | ⟨z, hz1, hz2⟩
    · -- w = pat ++ z : the occurrence sits inside x
      exact Or.inl ⟨u, z, by rw [hw1, hz1]; simp [List.append_assoc]⟩
    · -- pat = w ++ z and rep ++ y = z ++ v
      rcases List.append_eq_append_iff.mp hz2 with ⟨t, ht1, _⟩ | ⟨t, ht1, _⟩
      · -- z = rep ++ t : rep sits inside pat, impossible
        obtain ⟨c, hc⟩ := List.exists_mem_of_ne_nil rep hrep
        refine absurd ?_ (hdisj c hc)
        rw [hz1, ht1]
        exact List.mem_append_right w (List.mem_append_left t hc)
      · -- rep = z ++ t
        cases z with
        | nil =>
          -- pat = w, and x = u ++ w = u ++ pat
          refine Or.inl ⟨u, [], ?_⟩
          rw [hw1, hz1]
          simp
        | cons d ds =>
          refine absurd ?_ (hdisj d ?_)
          · rw [hz1]
            exact List.mem_append_right w (List.mem_cons_self d ds)
          · rw [ht1]
            exact List.mem_append_left t (List.mem_cons_self d ds)
  · -- u = x ++ w and rep ++ y = w ++ (pat ++ v)
    rcases List.append_eq_append_iff.mp hw2 with ⟨z, hz1, hz2⟩ | ⟨z, hz1, hz2⟩
    · -- w = rep ++ z : the occurrence sits inside y
      exact Or.inr ⟨z, v, by rw [hz2]; simp [List.append_assoc]⟩
    · -- rep = w ++ z and pat ++ v = z ++ y
      rcases List.append_eq_append_iff.mp hz2 with ⟨t, ht1, _⟩ | ⟨t, ht1, ht2⟩
      · -- z = pat ++ t : pat sits inside rep, impossible
        obtain ⟨c, hc⟩ := List.exists_mem_of_ne_nil pat hpat
        refine absurd ?_ (hdisj c ?_)
        · exact hc
        · rw [hz1, ht1]
          exact List.mem_append_right w (List.mem_append_left t hc)
      · -- pat = z ++ t and y = t ++ v
        cases z with
        | nil =>
          -- pat = t and y = pat ++ v
          have hpt : pat = t := by simpa using ht1
          refine Or.inr ⟨[], v, ?_⟩
          rw [ht2, hpt]
          simp
        | cons d ds =>
          refine absurd ?_ (hdisj d ?_)
          · rw [ht1]
            exact List.mem_append_left t (List.mem_cons_self d ds)
          · rw [hz1]
            exact List.mem_append_right w (List.mem_cons_self d ds)

theorem occurrenceInJoinList {pat rep : List Char} (hpat : pat ≠ []) (hrep : rep ≠ [])
    (hdisj : ∀ c ∈ rep, c ∉ pat) :
    ∀ pieces, pat <:+: joinList rep pieces → ∃ p ∈ pieces, pat <:+: p := by
  intro pieces
  induction pieces with
  | nil =>
    intro h
    have : pat = [] := by simpa [joinList] using h
    exact absurd this hpat
  | cons p ps ih =>
    intro h
    cases ps with
    | nil => exact ⟨p, List.mem_singleton_self p, h⟩
    | cons q qs =>
      have hj : joinList rep (p :: q :: qs) = p ++ rep ++ joinList rep (q :: qs) := rfl
      rw [hj] at h
      rcases occurrenceInAppend_cases hpat hrep hdisj h with h | h
      · exact ⟨p, List.mem_cons_self p _, h⟩
      · obtain ⟨p', hp', hinf⟩ := ih h
        exact ⟨p', List.mem_cons_of_mem p hp', hinf⟩

theorem replaceAll_no_occurrence {pat rep s : String} (hpat : pat.data ≠ [])
    (hrep : rep.data ≠ []) (hdisj : ∀ c ∈ rep.data, c ∉ pat.data) :
    ¬ pat.data <:+: (replaceAll s pat rep).data := by
  intro h
  obtain ⟨piece, hmem, hinf⟩ := occurrenceInJoinList hpat hrep hdisj _ h
  exact splitList_pieces hpat s.data piece hmem hinf

theorem replaceAll_roundtrip {s pat rep : String} (hpat : pat.data ≠ [])
    (hrep : rep.data ≠ []) (hs : ∀ c ∈ rep.data, c ∉ s.data) :
    replaceAll (replaceAll s pat rep) rep pat = s := by
  have hchunks : ∀ p ∈ splitList pat.data s.data, ∀ c ∈ p, c ∉ rep.data := by
    intro p hp c hc hcr
    exact hs c hcr (splitList_chars hpat s.data p hp c hc)
  show String.mk (joinList pat.data
    (splitList rep.data (joinList rep.data (splitList pat.data s.data)))) = s
  rw [splitList_joinList hrep _ (splitList_ne_nil hpat s.data) hchunks,
    joinList_splitList hpat]

/-! ## Properties of the handlers -/

theorem find?_map_swap (l : List GeneratedAsset) (assetId newU : String) :
    (l.map (fun a => if a.id == assetId then { a with url := newU } else a)).find?
      (fun a => a.id == assetId)
    = (l.find? (fun a => a.id == assetId)).map (fun a => { a with url := newU }) := by
  induction l with
  | nil => rfl
  | cons a l ih =>
    by_cases h : (a.id == assetId) = true
    · have hhead : (if (a.id == assetId) = true then
          ({ a with url := newU } : GeneratedAsset) else a) = { a with url := newU } := by
        simp [h]
      simp only [List.map_cons, hhead]
      simp [List.find?, h]
    · have hhead : (if (a.id == assetId) = true then
          ({ a with url := newU } : GeneratedAsset) else a) = a := by
        simp [h]
      simp only [List.map_cons, hhead]
      have hfalse : (a.id == assetId) = false := by
        simpa using h
      simp only [List.find?, hfalse]
      exact ih

theorem forgeAssets_length (oracle : Nat → Except String String) (ids : Nat → String) :
    ∀ (l : List AssetReq) (i : Nat), (forgeAssets oracle ids i l).length = l.length := by
  intro l
  induction l with
  | nil => intro i; rfl
  | cons req rest ih => intro i; simp [forgeAssets, ih]

theorem forgeAssets_get? (oracle : Nat → Except String String) (ids : Nat → String) :
    ∀ (l : List AssetReq) (i k : Nat),
      (forgeAssets oracle ids i l).get? k =
        (l.get? k).map (fun req => forgeOne req (oracle (i + k)) (ids (i + k))) := by
  intro l
  induction l with
  | nil => intro i k; simp [forgeAssets]
  | cons req rest ih =>
    intro i k
    cases k with
    | zero => simp [forgeAssets]
    | succ k =>
      simp only [forgeAssets, List.get?_cons_succ]
      rw [ih (i+1) k]
      have : i + 1 + k = i + (k + 1) := by omega
      rw [this]

theorem assetLoop_snd (oracle : Nat → Except String String) (ids : Nat → String)
    (now : String) :
    ∀ (l : List AssetReq) (i : Nat) (st : WorkflowState) (assets : List GeneratedAsset),
      (assetLoop oracle ids now i l st assets).2 = assets ++ forgeAssets oracle ids i l := by
  intro l
  induction l with
  | nil => intro i st assets; simp [assetLoop, forgeAssets]
  | cons req rest ih =>
    intro i st assets
    by_cases h : truthy req.existingUrl = true
    · simp only [assetLoop, forgeAssets, forgeOne, h, if_true]
      rw [ih]
      simp
    · rw [Bool.not_eq_true] at h
      cases ho : oracle i with
      | ok url =>
        simp only [assetLoop, forgeAssets, forgeOne, h, Bool.false_eq_true, if_false, ho]
        rw [ih]
        simp
      | error e =>
        simp only [assetLoop, forgeAssets, forgeOne, h, Bool.false_eq_true, if_false, ho]
        rw [ih]
        simp

theorem assetLoop_fst (oracle : Nat → Except String String) (ids : Nat → String)
    (now : String) :
    ∀ (l : List AssetReq) (i : Nat) (st : WorkflowState) (assets : List GeneratedAsset),
      (assetLoop oracle ids now i l st assets).1 =
        { st with logs := (assetLoop oracle ids now i l st assets).1.logs } := by
  intro l
  induction l with
  | nil => intro i st assets; rfl
  | cons req rest ih =>
    intro i st assets
    by_cases h : truthy req.existingUrl = true
    · simp only [assetLoop, h, if_true]
      rw [ih]
      rfl
    · rw [Bool.not_eq_true] at h
      cases ho : oracle i with
      | ok url =>
        simp only [assetLoop, h, Bool.false_eq_true, if_false, ho]
        rw [ih]
        rfl
      | error e =>
        simp only [assetLoop, h, Bool.false_eq_true, if_false, ho]
        rw [ih]
        rfl

theorem assetLoop_logs_mono (oracle : Nat → Except String String) (ids : Nat → String)
    (now : String) :
    ∀ (l : List AssetReq) (i : Nat) (st : WorkflowState) (assets : List GeneratedAsset)
      (m : String), m ∈ st.logs → m ∈ (assetLoop oracle ids now i l st assets).1.logs := by
  intro l
  induction l with
  | nil => intro i st assets m hm; exact hm
  | cons req rest ih =>
    intro i st assets m hm
    have hmem : ∀ (st' : WorkflowState) (msg : String), m ∈ st'.logs →
        m ∈ (addLog st' now msg).logs := by
      intro st' msg h
      exact List.mem_append_left _ h
    by_cases h : truthy req.existingUrl = true
    · simp only [assetLoop, h, if_true]
      exact ih _ _ _ _ (hmem st _ hm)
    · rw [Bool.not_eq_true] at h
      cases ho : oracle i with
      | ok url =>
        simp only [assetLoop, h, Bool.false_eq_true, if_false, ho]
        exact ih _ _ _ _ (hmem st _ hm)
      | error e =>
        simp only [assetLoop, h, Bool.false_eq_true, if_false, ho]
        exact ih _ _ _ _ (hmem _ _ (hmem st _ hm))

theorem assetLoop_warn (oracle : Nat → Except String String) (ids : Nat → String)
    (now : String) :
    ∀ (l : List AssetReq) (i : Nat) (st : WorkflowState) (assets : List GeneratedAsset)
      (k : Nat) (req : AssetReq) (e : String),
      l.get? k = some req → truthy req.existingUrl = false → oracle (i + k) = .error e →
      ("[" ++ now ++ "] " ++ ("[WARN] Generation for " ++ typeName req.type ++
        " failed. Using placeholder.")) ∈ (assetLoop oracle ids now i l st assets).1.logs := by
  intro l
  induction l with
  | nil => intro i st assets k req e hk; simp at hk
  | cons req₀ rest ih =>
    intro i st assets k req e hk hfalse herr
    cases k with
    | zero =>
      simp only [List.get?_cons_zero, Option.some.injEq] at hk
      subst hk
      have h0 : oracle i = .error e := by simpa using herr
      simp only [assetLoop, hfalse, Bool.false_eq_true, if_false, h0]
      refine assetLoop_logs_mono oracle ids now rest (i+1) _ _ _ ?_
      exact List.mem_append_right _ (List.mem_singleton_self _)
    | succ k =>
      simp only [List.get?_cons_succ] at hk
      have herr' : oracle (i + 1 + k) = .error e := by
        have : i + 1 + k = i + (k + 1) := by omega
        rw [this]; exact herr
      by_cases h : truthy req₀.existingUrl = true
      · simp only [assetLoop, h, if_true]
        exact ih (i+1) _ _ k req e hk hfalse herr'
      · rw [Bool.not_eq_true] at h
        cases ho : oracle i with
        | ok url =>
          simp only [assetLoop, h, Bool.false_eq_true, if_false, ho]
          exact ih (i+1) _ _ k req e hk hfalse herr'
        | error e' =>
          simp only [assetLoop, h, Bool.false_eq_true, if_false, ho]
          exact ih (i+1) _ _ k req e hk hfalse herr'

/-! ## Claim theorems -/

/-- Claim C2 (code bug evidence): `reset()` is `setState(INITIAL_STATE)`, so it
does NOT leave the gallery identical to its contents before the call — it
resets the gallery to the initial empty list along with every other field.
Evaluated at a state whose gallery holds one site. -/
theorem C2_reset_wipes_gallery :
    (resetState (exState "ab" "a")).gallery = [] ∧
    (exState "ab" "a").gallery ≠ [] ∧
    resetState (exState "ab" "a") = INITIAL_STATE := by
  refine ⟨rfl, ?_, rfl⟩
  decide

/-- Claim C7: `confirmRefinement(overrides)` merges shallowly — for every base
result and override patch, each top-level key present in the overrides
replaces the base's value and each absent key keeps the base's value, and the
value handed to the asset phase is exactly this merge of the stored research
result with the overrides. -/
theorem C7_shallow_merge :
    (∀ (base : ResearchResult) (o : ResearchOverrides),
      (mergeResearch base o).trends = o.trends.getD base.trends ∧
      (mergeResearch base o).competitors = o.competitors.getD base.competitors ∧
      (mergeResearch base o).keywords = o.keywords.getD base.keywords ∧
      (mergeResearch base o).recommendedDesignSystem
        = o.recommendedDesignSystem.getD base.recommendedDesignSystem ∧
      (mergeResearch base o).sources = o.sources.getD base.sources ∧
      (mergeResearch base o).marketContent = o.marketContent.getD base.marketContent ∧
      (mergeResearch base o).paymentConfig = o.paymentConfig.getD base.paymentConfig ∧
      (mergeResearch base o).products = o.products.getD base.products) ∧
    (∀ (st : WorkflowState) (o : ResearchOverrides)
      (oracle : Nat → Except String String) (codeRes : Except String (List WebPage))
      (ids : Nat → String) (siteId : String) (ts : Nat) (now : String)
      (base : ResearchResult), st.research = some base →
      handleRefineryConfirm st o oracle codeRes ids siteId ts now =
        runAssetPhase
          (addLog { st with researchOverrides := some o,
                            step := WorkflowStep.GENERATION,
                            isProcessing := true } now
            "Refinery settings locked. Casting production assets...")
          (mergeResearch base o) oracle codeRes ids siteId ts now) := by
  constructor
  · intro base o
    exact ⟨rfl, rfl, rfl, rfl, rfl, rfl, rfl, rfl⟩
  · intro st o oracle codeRes ids siteId ts now base hres
    simp [handleRefineryConfirm, hres]

/-- Witness for C7: the merge equations and the refinery hand-off at a
concrete editor state with a concrete override patch. -/
theorem C7_shallow_merge_witness :
    ((mergeResearch exResearch exOverrides).trends
        = exOverrides.trends.getD exResearch.trends ∧
      (mergeResearch exResearch exOverrides).competitors
        = exOverrides.competitors.getD exResearch.competitors) ∧
    handleRefineryConfirm exEditorState exOverrides (fun _ => .ok "u")
        (.ok [exPage "c"]) (fun _ => "id") "s9" 7 "t" =
      runAssetPhase
        (addLog { exEditorState with researchOverrides := some exOverrides,
                                     step := WorkflowStep.GENERATION,
                                     isProcessing := true } "t"
          "Refinery settings locked. Casting production assets...")
        (mergeResearch exResearch exOverrides) (fun _ => .ok "u")
        (.ok [exPage "c"]) (fun _ => "id") "s9" 7 "t" := by
  constructor
  · exact ⟨(C7_shallow_merge.1 exResearch exOverrides).1,
      (C7_shallow_merge.1 exResearch exOverrides).2.1⟩
  · exact C7_shallow_merge.2 exEditorState exOverrides (fun _ => .ok "u")
      (.ok [exPage "c"]) (fun _ => "id") "s9" 7 "t" exResearch rfl

/-- Claim C10 (counterexample): with no active site the full
`handleAssetUpdated` handler does not return the state completely unchanged —
it still appends its hot-swap log line, even when the asset identifier matches
a live `generatedAssets` entry. -/
theorem C10_noop_swap_cex :
    handleAssetUpdated { INITIAL_STATE with generatedAssets := [exAsset "u"] }
        "a1" "u2" "t"
      ≠ { INITIAL_STATE with generatedAssets := [exAsset "u"] } := by
  decide

/-- Claim C10 (amended): with no active site, `hotSwapAsset` leaves the state
unchanged except for the appended hot-swap log line — the `setState` updater
itself (the cited guard) returns the state identically, even when the asset
identifier matches a live `generatedAssets` entry. -/
theorem C10_noop_swap_amended (st : WorkflowState) (assetId newUrl now : String)
    (h : st.site = none) :
    hotSwapCore st assetId newUrl = st ∧
    handleAssetUpdated st assetId newUrl now =
      { st with logs := st.logs ++
          ["[" ++ now ++ "] " ++ ("Asset " ++ assetId ++ " hot-swapped.")] } := by
  have hcore : hotSwapCore st assetId newUrl = st := by
    simp [hotSwapCore, h]
  exact ⟨hcore, by simp [handleAssetUpdated, addLog, hcore]⟩

/-- Witness for the amended C10 at a state with a matching live asset and no
active site. -/
theorem C10_noop_swap_witness :
    hotSwapCore { INITIAL_STATE with generatedAssets := [exAsset "u"] } "a1" "u2"
      = { INITIAL_STATE with generatedAssets := [exAsset "u"] } ∧
    handleAssetUpdated { INITIAL_STATE with generatedAssets := [exAsset "u"] }
        "a1" "u2" "t"
      = { { INITIAL_STATE with generatedAssets := [exAsset "u"] } with
          logs := ({ INITIAL_STATE with generatedAssets := [exAsset "u"] }).logs ++
            ["[" ++ "t" ++ "] " ++ ("Asset " ++ "a1" ++ " hot-swapped.")] } :=
  C10_noop_swap_amended { INITIAL_STATE with generatedAssets := [exAsset "u"] }
    "a1" "u2" "t" rfl

/-- Claim C3 (counterexample): an active-page-index change is NOT mirrored
into the gallery — starting from a state where the active site equals its
gallery entry, `onPageChange 1` leaves a gallery entry that matches the active
site's identifier but differs from it. -/
theorem C3_mirror_cex :
    (onPageChange (exState "ab" "a") 1).site
        = some { exSite "ab" "a" with activePageIndex := 1 } ∧
    exSite "ab" "a" ∈ (onPageChange (exState "ab" "a") 1).gallery ∧
    (exSite "ab" "a").id = ({ exSite "ab" "a" with activePageIndex := 1 } : GeneratedSite).id ∧
    exSite "ab" "a" ≠ { exSite "ab" "a" with activePageIndex := 1 } := by
  refine ⟨rfl, ?_, rfl, ?_⟩ <;> decide

/-- Claim C3 (amended): deployment-record attachment and asset hot-swap are
mirrored into the matching gallery entry and preserve the identifier-match
invariant; the active-page-index change is not mirrored, so it preserves the
invariant only up to the `activePageIndex` field. -/
theorem C3_mirror_amended :
    (∀ (st : WorkflowState) (d : DeploymentState) (now : String),
      mirrors st → mirrors (handleDeploymentComplete st d now)) ∧
    (∀ (st : WorkflowState) (assetId newUrl now : String),
      mirrors st → mirrors (handleAssetUpdated st assetId newUrl now)) ∧
    (∀ (st : WorkflowState) (i : Nat),
      mirrors st → mirrorsExceptIdx (onPageChange st i)) := by
  refine ⟨?_, ?_, ?_⟩
  · intro st d now hm
    show mirrors (addLog (deployCore st d) now _)
    have : mirrors (deployCore st d) := by
      cases hsite : st.site with
      | none => simpa [deployCore, hsite] using hm
      | some site =>
        simp only [deployCore, hsite, mirrors]
        intro g hg hid
        obtain ⟨g₀, hg₀, rfl⟩ := List.mem_map.mp hg
        by_cases hb : (g₀.id == ({ site with deployment := some d } : GeneratedSite).id) = true
        · simp [hb]
        · exfalso
          simp only [hb, Bool.false_eq_true, if_false] at hid
          have : g₀.id ≠ ({ site with deployment := some d } : GeneratedSite).id := by
            simpa using hb
          exact this hid
    simpa [mirrors, addLog] using this
  · intro st assetId newUrl now hm
    show mirrors (addLog (hotSwapCore st assetId newUrl) now _)
    have : mirrors (hotSwapCore st assetId newUrl) := by
      cases hsite : st.site with
      | none => simpa [hotSwapCore, hsite] using hm
      | some site =>
        cases hfind : st.generatedAssets.find? (fun a => a.id == assetId) with
        | none => simpa [hotSwapCore, hsite, hfind] using hm
        | some oldAsset =>
          simp only [hotSwapCore, hsite, hfind, mirrors]
          intro g hg hid
          obtain ⟨g₀, hg₀, rfl⟩ := List.mem_map.mp hg
          by_cases hb : (g₀.id == ({ site with
              pages := site.pages.map (fun page =>
                { page with code := replaceAll page.code oldAsset.url newUrl }),
              assets := st.generatedAssets.map (fun a =>
                if a.id == assetId then { a with url := newUrl } else a) } :
                GeneratedSite).id) = true
          · simp [hb]
          · exfalso
            simp only [hb, Bool.false_eq_true, if_false] at hid
            exact hb (by simp [hid])
    simpa [mirrors, addLog] using this
  · intro st i hm
    cases hsite : st.site with
    | none => simp [mirrorsExceptIdx, onPageChange, hsite]
    | some s =>
      simp only [mirrorsExceptIdx, onPageChange, hsite]
      intro g hg hid
      have hgs : g = s := by
        have hm' := hm
        rw [mirrors, hsite] at hm'
        exact hm' g hg (by simpa using hid)
      subst hgs
      exact ⟨rfl, rfl, rfl, rfl, rfl, rfl, rfl, rfl⟩

/-- Witness for the amended C3: the three preservation parts applied to a
post-run state whose gallery entry equals the active site. -/
theorem C3_mirror_witness :
    mirrors (handleDeploymentComplete (exState "ab" "a") exDeploy "t") ∧
    mirrors (handleAssetUpdated (exState "ab" "a") "a1" "b" "t") ∧
    mirrorsExceptIdx (onPageChange (exState "ab" "a") 1) := by
  have hm : mirrors (exState "ab" "a") := by
    intro g hg _
    exact List.mem_singleton.mp hg
  exact ⟨C3_mirror_amended.1 (exState "ab" "a") exDeploy "t" hm,
    C3_mirror_amended.2.1 (exState "ab" "a") "a1" "b" "t" hm,
    C3_mirror_amended.2.2 (exState "ab" "a") 1 hm⟩

theorem swappedAssets_url {l : List GeneratedAsset} {assetId newU : String} :
    ∀ a' ∈ l.map (fun a => if a.id == assetId then { a with url := newU } else a),
      a'.id = assetId → a'.url = newU := by
  intro a' ha' hid
  obtain ⟨a₀, ha₀, rfl⟩ := List.mem_map.mp ha'
  by_cases h : (a₀.id == assetId) = true
  · simp [h]
  · exfalso
    simp only [h, Bool.false_eq_true, if_false] at hid
    exact h (by simp [hid])

theorem swappedPages_no_old {pages : List WebPage} {oldU newU : String}
    (hold : oldU.data ≠ []) (hnew : newU.data ≠ [])
    (hdisj : ∀ c ∈ newU.data, c ∉ oldU.data) :
    ∀ pg ∈ pages.map (fun page => { page with code := replaceAll page.code oldU newU }),
      ¬ oldU.data <:+: pg.code.data := by
  intro pg hpg
  obtain ⟨p₀, _, rfl⟩ := List.mem_map.mp hpg
  exact replaceAll_no_occurrence hold hnew hdisj

/-- Claim C5 (counterexample): textual substitution can recreate the old
reference — swapping the asset's reference from "a" to "aa" on the page "a"
yields the page "aa", which still contains the old reference "a". -/
theorem C5_swap_guarantee_cex :
    ((handleAssetUpdated (exState "a" "a") "a1" "aa" "t").site.map
      (fun s => s.pages.map WebPage.code)) = some ["aa"] ∧
    ("a" : String).data <:+: ("aa" : String).data := by
  refine ⟨?_, ?_⟩ <;> decide

/-- Claim C5 (amended): provided the old and new references are nonempty and
share no character, after `hotSwapAsset(assetId, newReference)` with a present
`assetId` the matching asset entries carry the new reference and no page of
the active site contains the old reference. -/
theorem C5_swap_guarantee_amended (st : WorkflowState) (assetId newU now : String)
    (oldA : GeneratedAsset) (site0 : GeneratedSite)
    (hsite : st.site = some site0)
    (hfind : st.generatedAssets.find? (fun a => a.id == assetId) = some oldA)
    (hold : oldA.url.data ≠ []) (hnew : newU.data ≠ [])
    (hdisj : ∀ c ∈ newU.data, c ∉ oldA.url.data) :
    (∀ a' ∈ (handleAssetUpdated st assetId newU now).generatedAssets,
      a'.id = assetId → a'.url = newU) ∧
    (∀ s', (handleAssetUpdated st assetId newU now).site = some s' →
      ∀ pg ∈ s'.pages, ¬ oldA.url.data <:+: pg.code.data) := by
  have hassets : (handleAssetUpdated st assetId newU now).generatedAssets =
      st.generatedAssets.map (fun a =>
        if a.id == assetId then { a with url := newU } else a) := by
    simp [handleAssetUpdated, addLog, hotSwapCore, hsite, hfind]
  have hsite' : (handleAssetUpdated st assetId newU now).site = some { site0 with
      pages := site0.pages.map (fun page =>
        { page with code := replaceAll page.code oldA.url newU }),
      assets := st.generatedAssets.map (fun a =>
        if a.id == assetId then { a with url := newU } else a) } := by
    simp [handleAssetUpdated, addLog, hotSwapCore, hsite, hfind]
  constructor
  · rw [hassets]
    exact swappedAssets_url
  · intro s' hs'
    rw [hsite'] at hs'
    have hs'' := Option.some.inj hs'
    subst hs''
    exact swappedPages_no_old hold hnew hdisj

/-- Witness for the amended C5: swapping "a" for the character-disjoint "b" on
the page "xay" leaves no occurrence of "a" and updates the entry. -/
theorem C5_swap_guarantee_witness :
    (∀ a' ∈ (handleAssetUpdated (exState "xay" "a") "a1" "b" "t").generatedAssets,
      a'.id = "a1" → a'.url = "b") ∧
    (∀ s', (handleAssetUpdated (exState "xay" "a") "a1" "b" "t").site = some s' →
      ∀ pg ∈ s'.pages, ¬ (exAsset "a").url.data <:+: pg.code.data) :=
  C5_swap_guarantee_amended (exState "xay" "a") "a1" "b" "t" (exAsset "a")
    (exSite "xay" "a") rfl (by decide) (by decide) (by decide) (by decide)

/-- Claim C4 (counterexample): the hot-swap round trip is not universally
byte-for-byte — on the page "ab" with asset reference "a", swapping "a"→"b"
gives "bb", and swapping "b"→"a" back gives "aa", not the original "ab". -/
theorem C4_roundtrip_cex :
    ((handleAssetUpdated (handleAssetUpdated (exState "ab" "a") "a1" "b" "t")
        "a1" "a" "t").site.map (fun s => s.pages.map WebPage.code)) = some ["aa"] ∧
    some [("aa" : String)] ≠ some [("ab" : String)] := by
  refine ⟨?_, ?_⟩ <;> decide

/-- Claim C4 (amended): provided `u1` (the asset's current reference) and `u2`
are nonempty, share no character, and no character of `u2` occurs in any page
of the active site, then after swapping `u1`→`u2` no page contains `u1` and the
matching asset entries no longer carry `u1`, and swapping `u2`→`u1` back
restores every page byte-for-byte. -/
theorem C4_roundtrip_amended (st : WorkflowState) (assetId u2 now now2 : String)
    (oldA : GeneratedAsset) (site0 : GeneratedSite)
    (hsite : st.site = some site0)
    (hfind : st.generatedAssets.find? (fun a => a.id == assetId) = some oldA)
    (hold : oldA.url.data ≠ []) (hnew : u2.data ≠ [])
    (hdisj : ∀ c ∈ u2.data, c ∉ oldA.url.data)
    (hpages : ∀ pg ∈ site0.pages, ∀ c ∈ u2.data, c ∉ pg.code.data) :
    (∀ s1, (handleAssetUpdated st assetId u2 now).site = some s1 →
      ∀ pg ∈ s1.pages, ¬ oldA.url.data <:+: pg.code.data) ∧
    (∀ a' ∈ (handleAssetUpdated st assetId u2 now).generatedAssets,
      a'.id = assetId → a'.url = u2 ∧ a'.url ≠ oldA.url) ∧
    (∀ s2, (handleAssetUpdated (handleAssetUpdated st assetId u2 now)
        assetId oldA.url now2).site = some s2 → s2.pages = site0.pages) := by
  have hassets1 : (handleAssetUpdated st assetId u2 now).generatedAssets =
      st.generatedAssets.map (fun a =>
        if a.id == assetId then { a with url := u2 } else a) := by
    simp [handleAssetUpdated, addLog, hotSwapCore, hsite, hfind]
  have hsite1 : (handleAssetUpdated st assetId u2 now).site = some { site0 with
      pages := site0.pages.map (fun page =>
        { page with code := replaceAll page.code oldA.url u2 }),
      assets := st.generatedAssets.map (fun a =>
        if a.id == assetId then { a with url := u2 } else a) } := by
    simp [handleAssetUpdated, addLog, hotSwapCore, hsite, hfind]
  have hfind1 : (handleAssetUpdated st assetId u2 now).generatedAssets.find?
      (fun a => a.id == assetId) = some { oldA with url := u2 } := by
    rw [hassets1, find?_map_swap, hfind]
    rfl
  have hne : u2 ≠ oldA.url := by
    intro he
    obtain ⟨c, hc⟩ := List.exists_mem_of_ne_nil u2.data hnew
    exact hdisj c hc (by rw [← he]; exact hc)
  obtain ⟨st1, hst1⟩ : ∃ st1, handleAssetUpdated st assetId u2 now = st1 := ⟨_, rfl⟩
  rw [hst1] at hassets1 hsite1 hfind1
  refine ⟨?_, ?_, ?_⟩
  · intro s1 hs1
    rw [hst1, hsite1] at hs1
    have hs1' := Option.some.inj hs1
    subst hs1'
    exact swappedPages_no_old hold hnew hdisj
  · intro a' ha' hid
    rw [hst1, hassets1] at ha'
    exact ⟨swappedAssets_url a' ha' hid, by rw [swappedAssets_url a' ha' hid]; exact hne⟩
  · intro s2 hs2
    rw [hst1] at hs2
    have hsite2 : (handleAssetUpdated st1 assetId oldA.url now2).site = some {
      site0 with
      pages := (site0.pages.map (fun page =>
        { page with code := replaceAll page.code oldA.url u2 })).map (fun page =>
        { page with code := replaceAll page.code u2 oldA.url }),
      assets := st1.generatedAssets.map (fun a =>
        if a.id == assetId then { a with url := oldA.url } else a) } := by
      simp [handleAssetUpdated, addLog, hotSwapCore, hsite1, hfind1]
    rw [hsite2] at hs2
    have hs2' := Option.some.inj hs2
    subst hs2'
    show (site0.pages.map _).map _ = site0.pages
    rw [List.map_map]
    have hid : ∀ p ∈ site0.pages,
        (((fun page => { page with code := replaceAll page.code u2 oldA.url }) ∘
          (fun page => { page with code := replaceAll page.code oldA.url u2 })) p) = p := by
      intro p hp
      have hR := replaceAll_roundtrip hold hnew (hpages p hp)
      simp only [Function.comp]
      rw [hR]
    rw [List.map_congr_left hid]
    simp

/-- Witness for the amended C4: on the page "xay" with asset reference "a",
swapping to the character-disjoint "b" removes "a" everywhere, and swapping
back restores the page text byte-for-byte. -/
theorem C4_roundtrip_witness :
    (∀ s1, (handleAssetUpdated (exState "xay" "a") "a1" "b" "t").site = some s1 →
      ∀ pg ∈ s1.pages, ¬ (exAsset "a").url.data <:+: pg.code.data) ∧
    (∀ a' ∈ (handleAssetUpdated (exState "xay" "a") "a1" "b" "t").generatedAssets,
      a'.id = "a1" → a'.url = "b" ∧ a'.url ≠ (exAsset "a").url) ∧
    (∀ s2, (handleAssetUpdated (handleAssetUpdated (exState "xay" "a") "a1" "b" "t")
        "a1" (exAsset "a").url "t2").site = some s2 →
      s2.pages = (exSite "xay" "a").pages) :=
  C4_roundtrip_amended (exState "xay" "a") "a1" "b" "t" "t2" (exAsset "a")
    (exSite "xay" "a") rfl (by decide) (by decide) (by decide) (by decide) (by decide)

/-- Claim C6: every successful full-pipeline run prepends the newly assembled
site as the gallery's first element, caps the gallery at 20 entries, and keeps
the previously stored entries in their most-recent-first order (the retained
ones form the old gallery's first 19 entries, in order). -/
theorem C6_gallery_update (st : WorkflowState) (r : ResearchResult)
    (oracle : Nat → Except String String) (ids : Nat → String)
    (siteId : String) (ts : Nat) (now : String) (a : AnalysisResult)
    (pages : List WebPage) (h : st.analysis = some a) :
    (runAssetPhase st r oracle (.ok pages) ids siteId ts now).site
      = some (mkSite siteId ts r a pages
          (forgeAssets oracle ids 0 (buildAssetPrompts a r))) ∧
    (runAssetPhase st r oracle (.ok pages) ids siteId ts now).gallery
      = (mkSite siteId ts r a pages (forgeAssets oracle ids 0 (buildAssetPrompts a r))
          :: st.gallery).take 20 ∧
    (runAssetPhase st r oracle (.ok pages) ids siteId ts now).gallery.head?
      = some (mkSite siteId ts r a pages
          (forgeAssets oracle ids 0 (buildAssetPrompts a r))) ∧
    (runAssetPhase st r oracle (.ok pages) ids siteId ts now).gallery.length ≤ 20 ∧
    (runAssetPhase st r oracle (.ok pages) ids siteId ts now).gallery.tail
      = st.gallery.take 19 ∧
    (runAssetPhase st r oracle (.ok pages) ids siteId ts now).step
      = WorkflowStep.PREVIEW ∧
    (runAssetPhase st r oracle (.ok pages) ids siteId ts now).isProcessing = false := by
  have hloop2 := assetLoop_snd oracle ids now (buildAssetPrompts a r) 0 st []
  rw [List.nil_append] at hloop2
  have hgal : (assetLoop oracle ids now 0 (buildAssetPrompts a r) st []).1.gallery
      = st.gallery := by
    rw [assetLoop_fst oracle ids now (buildAssetPrompts a r) 0 st []]
  refine ⟨?_, ?_, ?_, ?_, ?_, ?_, ?_⟩ <;>
    simp only [runAssetPhase, h, addLog, hloop2, hgal]
  · rw [List.take_succ_cons]
    rfl
  · rw [List.length_take]
    exact min_le_left _ _
  · rw [List.take_succ_cons]
    rfl

/-- Witness for C6: a concrete successful run from an editor-shaped state. -/
theorem C6_gallery_update_witness :
    (runAssetPhase exEditorState exResearch (fun _ => .ok "u") (.ok [exPage "c"])
        (fun _ => "id") "s9" 7 "t").site
      = some (mkSite "s9" 7 exResearch exAnalysis [exPage "c"]
          (forgeAssets (fun _ => .ok "u") (fun _ => "id") 0
            (buildAssetPrompts exAnalysis exResearch))) ∧
    (runAssetPhase exEditorState exResearch (fun _ => .ok "u") (.ok [exPage "c"])
        (fun _ => "id") "s9" 7 "t").gallery
      = (mkSite "s9" 7 exResearch exAnalysis [exPage "c"]
          (forgeAssets (fun _ => .ok "u") (fun _ => "id") 0
            (buildAssetPrompts exAnalysis exResearch)) :: exEditorState.gallery).take 20 ∧
    (runAssetPhase exEditorState exResearch (fun _ => .ok "u") (.ok [exPage "c"])
        (fun _ => "id") "s9" 7 "t").gallery.head?
      = some (mkSite "s9" 7 exResearch exAnalysis [exPage "c"]
          (forgeAssets (fun _ => .ok "u") (fun _ => "id") 0
            (buildAssetPrompts exAnalysis exResearch))) ∧
    (runAssetPhase exEditorState exResearch (fun _ => .ok "u") (.ok [exPage "c"])
        (fun _ => "id") "s9" 7 "t").gallery.length ≤ 20 ∧
    (runAssetPhase exEditorState exResearch (fun _ => .ok "u") (.ok [exPage "c"])
        (fun _ => "id") "s9" 7 "t").gallery.tail = exEditorState.gallery.take 19 ∧
    (runAssetPhase exEditorState exResearch (fun _ => .ok "u") (.ok [exPage "c"])
        (fun _ => "id") "s9" 7 "t").step = WorkflowStep.PREVIEW ∧
    (runAssetPhase exEditorState exResearch (fun _ => .ok "u") (.ok [exPage "c"])
        (fun _ => "id") "s9" 7 "t").isProcessing = false :=
  C6_gallery_update exEditorState exResearch (fun _ => .ok "u") (fun _ => "id")
    "s9" 7 "t" exAnalysis [exPage "c"] rfl

/-- Claim C8: if the image generation for a slot fails, that slot still gets
exactly one asset entry (positionally) carrying the fixed fallback reference,
a warning line is logged, every other generated slot still receives its own
result in slot order, and the run reaches PREVIEW with the run-level error
field untouched. -/
theorem C8_asset_fallback (st : WorkflowState) (r : ResearchResult)
    (oracle : Nat → Except String String) (ids : Nat → String)
    (siteId : String) (ts : Nat) (now : String) (a : AnalysisResult)
    (pages : List WebPage) (k : Nat) (req : AssetReq) (e : String)
    (h : st.analysis = some a)
    (hreq : (buildAssetPrompts a r).get? k = some req)
    (hex : truthy req.existingUrl = false)
    (herr : oracle k = .error e) :
    (runAssetPhase st r oracle (.ok pages) ids siteId ts now).step
      = WorkflowStep.PREVIEW ∧
    (runAssetPhase st r oracle (.ok pages) ids siteId ts now).isProcessing = false ∧
    (runAssetPhase st r oracle (.ok pages) ids siteId ts now).error = st.error ∧
    (runAssetPhase st r oracle (.ok pages) ids siteId ts now).generatedAssets.length
      = (buildAssetPrompts a r).length ∧
    (runAssetPhase st r oracle (.ok pages) ids siteId ts now).generatedAssets.get? k
      = some { id := ids k, type := req.type, url := placeholderUrl,
               prompt := req.prompt } ∧
    ("[" ++ now ++ "] " ++ ("[WARN] Generation for " ++ typeName req.type ++
        " failed. Using placeholder."))
      ∈ (runAssetPhase st r oracle (.ok pages) ids siteId ts now).logs ∧
    (∀ j req' u, (buildAssetPrompts a r).get? j = some req' →
      truthy req'.existingUrl = false → oracle j = .ok u →
      (runAssetPhase st r oracle (.ok pages) ids siteId ts now).generatedAssets.get? j
        = some { id := ids j, type := req'.type, url := u, prompt := req'.prompt }) := by
  have hloop2 := assetLoop_snd oracle ids now (buildAssetPrompts a r) 0 st []
  rw [List.nil_append] at hloop2
  have herrf : (assetLoop oracle ids now 0 (buildAssetPrompts a r) st []).1.error
      = st.error := by
    rw [assetLoop_fst oracle ids now (buildAssetPrompts a r) 0 st []]
  refine ⟨?_, ?_, ?_, ?_, ?_, ?_, ?_⟩ <;>
    simp only [runAssetPhase, h, addLog, hloop2, herrf]
  · exact forgeAssets_length oracle ids (buildAssetPrompts a r) 0
  · rw [forgeAssets_get? oracle ids (buildAssetPrompts a r) 0 k, hreq]
    simp [forgeOne, hex, herr]
  · refine List.mem_append_left _ (List.mem_append_left _ ?_)
    refine assetLoop_warn oracle ids now (buildAssetPrompts a r) 0 st [] k req e hreq hex ?_
    rw [Nat.zero_add]
    exact herr
  · intro j req' u hreq' hex' hok
    rw [forgeAssets_get? oracle ids (buildAssetPrompts a r) 0 j, hreq']
    simp [forgeOne, hex', hok]

/-- Witness for C8: slot 0 (the hero slot) fails while slot 1 succeeds; the
fallback lands positionally at slot 0, the warning is logged, slot 1 keeps its
generated reference, and the run reaches PREVIEW with no error. -/
theorem C8_asset_fallback_witness :
    (runAssetPhase exEditorState exResearch exOracle (.ok [exPage "c"])
        (fun _ => "id") "s9" 7 "t").step = WorkflowStep.PREVIEW ∧
    (runAssetPhase exEditorState exResearch exOracle (.ok [exPage "c"])
        (fun _ => "id") "s9" 7 "t").isProcessing = false ∧
    (runAssetPhase exEditorState exResearch exOracle (.ok [exPage "c"])
        (fun _ => "id") "s9" 7 "t").error = exEditorState.error ∧
    (runAssetPhase exEditorState exResearch exOracle (.ok [exPage "c"])
        (fun _ => "id") "s9" 7 "t").generatedAssets.length
      = (buildAssetPrompts exAnalysis exResearch).length ∧
    (runAssetPhase exEditorState exResearch exOracle (.ok [exPage "c"])
        (fun _ => "id") "s9" 7 "t").generatedAssets.get? 0
      = some { id := "id", type := AssetType.hero, url := placeholderUrl,
               prompt := "High-end minimalist hero visual for tea. Theme: VP" } ∧
    ("[" ++ "t" ++ "] " ++ ("[WARN] Generation for " ++ typeName AssetType.hero ++
        " failed. Using placeholder."))
      ∈ (runAssetPhase exEditorState exResearch exOracle (.ok [exPage "c"])
        (fun _ => "id") "s9" 7 "t").logs ∧
    (∀ j req' u, (buildAssetPrompts exAnalysis exResearch).get? j = some req' →
      truthy req'.existingUrl = false → exOracle j = .ok u →
      (runAssetPhase exEditorState exResearch exOracle (.ok [exPage "c"])
        (fun _ => "id") "s9" 7 "t").generatedAssets.get? j
        = some { id := "id", type := req'.type, url := u, prompt := req'.prompt }) :=
  C8_asset_fallback exEditorState exResearch exOracle (fun _ => "id") "s9" 7 "t"
    exAnalysis [exPage "c"] 0
    { type := AssetType.hero,
      prompt := "High-end minimalist hero visual for tea. Theme: VP" }
    "img down" rfl (by decide) rfl rfl

theorem promiseAll_ok_length :
    ∀ (convs : List (Except String String)) (imgs : List String),
      promiseAll convs = .ok imgs → imgs.length = convs.length := by
  intro convs
  induction convs with
  | nil =>
    intro imgs h
    simp only [promiseAll, Except.ok.injEq] at h
    subst h
    rfl
  | cons c rest ih =>
    intro imgs h
    cases c with
    | ok s =>
      simp only [promiseAll] at h
      cases hrest : promiseAll rest with
      | ok imgs' =>
        rw [hrest] at h
        have h' : s :: imgs' = imgs := by
          simpa [Except.map] using h
        subst h'
        simp [ih imgs' hrest]
      | error e =>
        rw [hrest] at h
        simp [Except.map] at h
    | error e => simp [promiseAll] at h

/-- Claim C1 (counterexample): a `generateSiteCode` rejection is NOT surfaced
— `handleRefineryConfirm` neither awaits nor catches `runAssetPhase`, so after
a code-generation failure the state still has `isProcessing = true` and no
error message. -/
theorem C1_fatal_cex :
    (handleRefineryConfirm exEditorState exOverrides (fun _ => .ok "u")
        (.error "codegen boom") (fun _ => "id") "s9" 7 "t").isProcessing = true ∧
    (handleRefineryConfirm exEditorState exOverrides (fun _ => .ok "u")
        (.error "codegen boom") (fun _ => "id") "s9" 7 "t").error = none := by
  refine ⟨?_, ?_⟩ <;> decide

theorem runAssetPhase_codegen_error (st : WorkflowState) (r : ResearchResult)
    (oracle : Nat → Except String String) (e : String) (ids : Nat → String)
    (siteId : String) (ts : Nat) (now : String) (a : AnalysisResult)
    (hana : st.analysis = some a) :
    (runAssetPhase st r oracle (.error e) ids siteId ts now).isProcessing
      = st.isProcessing ∧
    (runAssetPhase st r oracle (.error e) ids siteId ts now).error = st.error ∧
    (runAssetPhase st r oracle (.error e) ids siteId ts now).step
      = WorkflowStep.CODING := by
  have hf := assetLoop_fst oracle ids now (buildAssetPrompts a r) 0 st []
  have hfp : (assetLoop oracle ids now 0 (buildAssetPrompts a r) st []).1.isProcessing
      = st.isProcessing := by rw [hf]
  have hfe : (assetLoop oracle ids now 0 (buildAssetPrompts a r) st []).1.error
      = st.error := by rw [hf]
  refine ⟨?_, ?_, ?_⟩ <;> simp [runAssetPhase, hana, addLog, hfp, hfe]

/-- Claim C1 (amended): a rejection of analyze() or research() is caught by
the upload handler and ends the run with the failure surfaced as the error
message and the processing flag cleared; a rejection of generateSiteCode() is
not caught anywhere — the state keeps `isProcessing = true`, the error field
untouched, and the step stuck at CODING. -/
theorem C1_fatal_failures_amended :
    (∀ (st : WorkflowState) (convs : List (Except String String)) (imgs : List String)
      (e : String) (re : Except String ResearchResult) (now : String),
      convs ≠ [] → promiseAll convs = .ok imgs →
      (handleFileUpload st convs (.error e) re now).error
        = some (errMsgOr e "Forge sequence failed to initialize.") ∧
      (handleFileUpload st convs (.error e) re now).isProcessing = false) ∧
    (∀ (st : WorkflowState) (convs : List (Except String String)) (imgs : List String)
      (e : String) (a : AnalysisResult) (now : String),
      convs ≠ [] → promiseAll convs = .ok imgs →
      (handleFileUpload st convs (.ok a) (.error e) now).error
        = some (errMsgOr e "Forge sequence failed to initialize.") ∧
      (handleFileUpload st convs (.ok a) (.error e) now).isProcessing = false) ∧
    (∀ (st : WorkflowState) (o : ResearchOverrides)
      (oracle : Nat → Except String String) (e : String) (ids : Nat → String)
      (siteId : String) (ts : Nat) (now : String) (base : ResearchResult)
      (a : AnalysisResult), st.research = some base → st.analysis = some a →
      (handleRefineryConfirm st o oracle (.error e) ids siteId ts now).isProcessing
        = true ∧
      (handleRefineryConfirm st o oracle (.error e) ids siteId ts now).error
        = st.error ∧
      (handleRefineryConfirm st o oracle (.error e) ids siteId ts now).step
        = WorkflowStep.CODING) := by
  refine ⟨?_, ?_, ?_⟩
  · intro st convs imgs e re now hne hconv
    have hie : convs.isEmpty = false := by
      cases convs with
      | nil => exact absurd rfl hne
      | cons c cs => rfl
    simp [handleFileUpload, hie, hconv, runAnalysisPhase, uploadCatch, addLog]
  · intro st convs imgs e a now hne hconv
    have hie : convs.isEmpty = false := by
      cases convs with
      | nil => exact absurd rfl hne
      | cons c cs => rfl
    simp [handleFileUpload, hie, hconv, runAnalysisPhase, uploadCatch, addLog]
  · intro st o oracle e ids siteId ts now base a hres hana
    simp only [handleRefineryConfirm, hres]
    exact runAssetPhase_codegen_error _ (mergeResearch base o) oracle e ids
      siteId ts now a hana

/-- Witness for the amended C1: the three failure scenarios at concrete
inputs — analyze rejecting, research rejecting, and the site-code generation
rejecting. -/
theorem C1_fatal_failures_witness :
    ((handleFileUpload INITIAL_STATE [.ok "x"] (.error "analyze down")
        (.ok exResearch) "t").error
      = some (errMsgOr "analyze down" "Forge sequence failed to initialize.") ∧
     (handleFileUpload INITIAL_STATE [.ok "x"] (.error "analyze down")
        (.ok exResearch) "t").isProcessing = false) ∧
    ((handleFileUpload INITIAL_STATE [.ok "x"] (.ok exAnalysis)
        (.error "research down") "t").error
      = some (errMsgOr "research down" "Forge sequence failed to initialize.") ∧
     (handleFileUpload INITIAL_STATE [.ok "x"] (.ok exAnalysis)
        (.error "research down") "t").isProcessing = false) ∧
    ((handleRefineryConfirm exEditorState exOverrides (fun _ => .ok "u")
        (.error "codegen boom") (fun _ => "id") "s9" 7 "t").isProcessing = true ∧
     (handleRefineryConfirm exEditorState exOverrides (fun _ => .ok "u")
        (.error "codegen boom") (fun _ => "id") "s9" 7 "t").error
       = exEditorState.error ∧
     (handleRefineryConfirm exEditorState exOverrides (fun _ => .ok "u")
        (.error "codegen boom") (fun _ => "id") "s9" 7 "t").step
       = WorkflowStep.CODING) :=
  ⟨C1_fatal_failures_amended.1 INITIAL_STATE [.ok "x"] ["x"] "analyze down"
      (.ok exResearch) "t" (by simp) rfl,
   C1_fatal_failures_amended.2.1 INITIAL_STATE [.ok "x"] ["x"] "research down"
      exAnalysis "t" (by simp) rfl,
   C1_fatal_failures_amended.2.2 exEditorState exOverrides (fun _ => .ok "u")
      "codegen boom" (fun _ => "id") "s9" 7 "t" exResearch exAnalysis rfl rfl⟩

/-- Claim C9 (counterexample): when a conversion fails, `uploadedImages` is
not left empty — it keeps whatever it held before the call (here three stale
entries), with the error set. -/
theorem C9_upload_cex :
    (handleFileUpload { INITIAL_STATE with uploadedImages := ["s1", "s2", "s3"] }
        [.ok "x", .error "disk"] (.ok exAnalysis) (.ok exResearch) "t").uploadedImages
      = ["s1", "s2", "s3"] ∧
    (["s1", "s2", "s3"] : List String) ≠ [] ∧
    (handleFileUpload { INITIAL_STATE with uploadedImages := ["s1", "s2", "s3"] }
        [.ok "x", .error "disk"] (.ok exAnalysis) (.ok exResearch) "t").error
      = some "disk" := by
  refine ⟨?_, ?_, ?_⟩ <;> decide

/-- Claim C9 (amended): with two files, either every conversion succeeds and
`uploadedImages` afterwards holds exactly the two encoded entries, or the
conversion join rejects and `uploadedImages` is left unchanged from before the
call (empty in a fresh run) with a non-null error — a partial list of the new
uploads is never produced. -/
theorem C9_upload_amended :
    (∀ (st : WorkflowState) (convs : List (Except String String))
      (an : Except String AnalysisResult) (re : Except String ResearchResult)
      (now : String) (imgs : List String),
      convs.length = 2 → promiseAll convs = .ok imgs →
      (handleFileUpload st convs an re now).uploadedImages = imgs ∧
      imgs.length = 2) ∧
    (∀ (st : WorkflowState) (convs : List (Except String String))
      (an : Except String AnalysisResult) (re : Except String ResearchResult)
      (now : String) (e : String),
      convs.length = 2 → promiseAll convs = .error e →
      (handleFileUpload st convs an re now).uploadedImages = st.uploadedImages ∧
      (handleFileUpload st convs an re now).error
        = some (errMsgOr e "Forge sequence failed to initialize.")) := by
  constructor
  · intro st convs an re now imgs hlen hconv
    have hie : convs.isEmpty = false := by
      cases convs with
      | nil => simp at hlen
      | cons c cs => rfl
    refine ⟨?_, (promiseAll_ok_length convs imgs hconv).trans hlen⟩
    cases an with
    | error e => simp [handleFileUpload, hie, hconv, runAnalysisPhase, uploadCatch, addLog]
    | ok a0 =>
      cases re with
      | error e =>
        simp [handleFileUpload, hie, hconv, runAnalysisPhase, uploadCatch, addLog]
      | ok r0 =>
        simp [handleFileUpload, hie, hconv, runAnalysisPhase, uploadCatch, addLog]
  · intro st convs an re now e hlen hconv
    have hie : convs.isEmpty = false := by
      cases convs with
      | nil => simp at hlen
      | cons c cs => rfl
    constructor <;> simp [handleFileUpload, hie, hconv, uploadCatch, addLog]

/-- Witness for the amended C9: a successful two-file upload and a failing one
from a state with a previously filled `uploadedImages`. -/
theorem C9_upload_witness :
    ((handleFileUpload INITIAL_STATE [.ok "x", .ok "y"] (.ok exAnalysis)
        (.ok exResearch) "t").uploadedImages = ["x", "y"] ∧
      (["x", "y"] : List String).length = 2) ∧
    ((handleFileUpload { INITIAL_STATE with uploadedImages := ["keep"] }
        [.ok "x", .error "disk"] (.ok exAnalysis) (.ok exResearch) "t").uploadedImages
      = ({ INITIAL_STATE with uploadedImages := ["keep"] } : WorkflowState).uploadedImages ∧
     (handleFileUpload { INITIAL_STATE with uploadedImages := ["keep"] }
        [.ok "x", .error "disk"] (.ok exAnalysis) (.ok exResearch) "t").error
      = some (errMsgOr "disk" "Forge sequence failed to initialize.")) :=
  ⟨C9_upload_amended.1 INITIAL_STATE [.ok "x", .ok "y"] (.ok exAnalysis)
      (.ok exResearch) "t" ["x", "y"] rfl rfl,
   C9_upload_amended.2 { INITIAL_STATE with uploadedImages := ["keep"] }
      [.ok "x", .error "disk"] (.ok exAnalysis) (.ok exResearch) "t" "disk" rfl rfl⟩
